import Mathlib

/-!
Shallow embedding of the todo-list application in `src/script.js`.

The application is a single state-management component: a task collection
(`this.tasks`, a JS array mutated in place), a current filter string, and a
persistence layer over the browser local storage.  We embed each store
operation as a pure function on the task list (respectively on an `AppState`
record holding the list and the filter), passing the clock value `now`
explicitly where the source reads `Date.now()` / `new Date()`.  Machine
numbers (`Date.now()` millisecond timestamps, task ids) are modelled as `Nat`.
DOM reads/writes, `alert`, `confirm` and rendering are outside the store's
data semantics and are not modelled; `alert` on a validation failure is
modelled as returning the corresponding `ValidationError`, and `deleteTask`,
`clearCompleted`, `clearAll` are modelled at the point after the user
confirmed (the spec states the store exposes them assuming confirmation
already happened).
-/

namespace TodoSpec

/-- The `Task` class of `script.js` lines 1-14: `id` (a `Date.now()`
millisecond value), `text`, `completed`, and `createdAt` (a `Date`, modelled
by its millisecond timestamp). -/
structure Task where
  id : Nat
  text : String
  completed : Bool
  createdAt : Nat
deriving DecidableEq, Repr

/-- The two validation failures the store can surface via `alert`:
`addTask` line 53 / `saveEdit` line 119 ("empty") and `addTask` line 58
("too long"). -/
inductive ValidationError where
  | empty
  | tooLong
deriving DecidableEq, Repr

/-- Model of the platform builtin `String.prototype.trim` used at lines 50
and 117: removes leading and trailing whitespace characters. -/
def jsTrim (s : String) : String :=
  String.mk (((s.data.dropWhile Char.isWhitespace).reverse.dropWhile Char.isWhitespace).reverse)

/-- `TodoApp.addTask`, lines 48-70, on the task collection.  The source trims
the input (line 50), rejects the empty trim (line 52) and length > 100
(line 57), otherwise constructs `new Task(Date.now(), text)` — whose default
`createdAt` is the current time — and pushes it (lines 62-64).  `now` stands
for `Date.now()`.  The pair returns the resulting collection together with
the constructed task (or the validation failure). -/
def addTask (raw : String) (now : Nat) (tasks : List Task) :
    List Task × Except ValidationError Task :=
  let text := jsTrim raw
  if text = "" then
    (tasks, Except.error ValidationError.empty)
  else if text.length > 100 then
    (tasks, Except.error ValidationError.tooLong)
  else
    let task : Task := { id := now, text := text, completed := false, createdAt := now }
    (tasks ++ [task], Except.ok task)

/-- `TodoApp.deleteTask`, lines 72-78, after the user confirmed:
`this.tasks = this.tasks.filter(task => task.id !== id)`. -/
def deleteTask (id : Nat) (tasks : List Task) : List Task :=
  tasks.filter (fun task => task.id != id)

/-- `TodoApp.toggleTask`, lines 80-87: `this.tasks.find(t => t.id === id)`
and, when found, flip that task's `completed` in place.  `find` returns the
first match, so only the first task with the given id is toggled. -/
def toggleTask (id : Nat) : List Task → List Task
  | [] => []
  | t :: ts =>
    if t.id = id then { t with completed := !t.completed } :: ts
    else t :: toggleTask id ts

/-- The in-place `task.text = text` of `saveEdit` line 125 on the first task
found by `this.tasks.find(t => t.id === id)` (line 123); identity when no
task matches. -/
def setTaskText (id : Nat) (text : String) : List Task → List Task
  | [] => []
  | t :: ts =>
    if t.id = id then { t with text := text } :: ts
    else t :: setTaskText id text ts

/-- `TodoApp.saveEdit`, lines 116-130 (the store part of the edit flow):
trims the new text (line 117), rejects the empty trim (line 118), otherwise
replaces the text of the first task with the given id, a no-op when absent.
Note there is no length check, unlike `addTask`. -/
def saveEdit (id : Nat) (newText : String) (tasks : List Task) :
    Except ValidationError (List Task) :=
  let text := jsTrim newText
  if text = "" then Except.error ValidationError.empty
  else Except.ok (setTaskText id text tasks)

/-- `TodoApp.clearCompleted`, lines 138-144, after confirmation:
`this.tasks.filter(task => !task.completed)`. -/
def clearCompleted (tasks : List Task) : List Task :=
  tasks.filter (fun task => !task.completed)

/-- `TodoApp.clearAll`, lines 146-152, after confirmation: `this.tasks = []`. -/
def clearAll (_tasks : List Task) : List Task :=
  []

/-- The store state the filter-related operations act on: the task collection
and `this.currentFilter` (a string, initialised to "all"). -/
structure AppState where
  tasks : List Task
  currentFilter : String
deriving DecidableEq, Repr

/-- `TodoApp.setFilter`, lines 154-160 (store part): `this.currentFilter =
filter`, with no validation of the value. -/
def setFilter (filter : String) (st : AppState) : AppState :=
  { st with currentFilter := filter }

/-- `TodoApp.getFilteredTasks`, lines 162-171: a `switch` on
`this.currentFilter` with cases "active" and "completed" and a default
returning the full collection. -/
def getFilteredTasks (st : AppState) : List Task :=
  if st.currentFilter = "active" then
    st.tasks.filter (fun task => !task.completed)
  else if st.currentFilter = "completed" then
    st.tasks.filter (fun task => task.completed)
  else
    st.tasks

/-- `toggleTask` lifted to the full store state (it touches only
`this.tasks`, never `this.currentFilter`). -/
def toggleTaskApp (id : Nat) (st : AppState) : AppState :=
  { st with tasks := toggleTask id st.tasks }

/-- One record of the persisted snapshot: `saveTasks` lines 222-227
serialises each task as `(id, text, completed, createdAt)`; `createdAt` is a
`Date` that `JSON.stringify` encodes with full millisecond precision, so we
keep it as its millisecond timestamp. -/
structure StoredTask where
  id : Nat
  text : String
  completed : Bool
  createdAt : Nat
deriving DecidableEq, Repr

/-- The per-task record built by the `map` in `saveTasks` lines 222-227. -/
def taskToStored (t : Task) : StoredTask :=
  { id := t.id, text := t.text, completed := t.completed, createdAt := t.createdAt }

/-- The per-record reconstruction in `loadTasks` line 235:
`new Task(t.id, t.text, t.completed, new Date(t.createdAt))`. -/
def storedToTask (s : StoredTask) : Task :=
  { id := s.id, text := s.text, completed := s.completed, createdAt := s.createdAt }

/-- `TodoApp.saveTasks`, lines 221-228: the snapshot written to storage is
the collection mapped through the record projection (the subsequent
`JSON.stringify` is the platform encoding of this snapshot; see
`load_save_roundtrip`). -/
def saveTasks (tasks : List Task) : List StoredTask :=
  tasks.map taskToStored

/-- `TodoApp.loadTasks`, lines 230-241.  `stored` is the storage cell content
(`localStorage.getItem`, `none` when the key is absent).  Line 232 guards
with `if (stored)`, a JS truthiness test, so both an absent key and a
present empty string skip the whole block and keep the constructor's initial
`[]`, with nothing logged.  `parse` models the platform `JSON.parse` plus
the mapping of lines 234-235: `none` when the `try` block throws, `some
data` when it yields the parsed records.  The returned `Bool` records
whether the `catch` branch ran (`console.error` at line 237, tasks reset to
`[]` at line 238). -/
def loadTasks (parse : String → Option (List StoredTask)) (stored : Option String) :
    List Task × Bool :=
  match stored with
  | none => ([], false)
  | some s =>
    if s = "" then ([], false)
    else
      match parse s with
      | none => ([], true)
      | some data => (data.map storedToTask, false)

/-! ## Helper lemmas -/

theorem storedToTask_taskToStored (t : Task) : storedToTask (taskToStored t) = t :=
  rfl

theorem toggleTask_not_found (id : Nat) :
    ∀ tasks : List Task, (∀ t ∈ tasks, t.id ≠ id) → toggleTask id tasks = tasks := by
  intro tasks
  induction tasks with
  | nil => intro _; rfl
  | cons t ts ih =>
    intro h
    have ht : t.id ≠ id := h t (List.mem_cons_self t ts)
    simp only [toggleTask, if_neg ht]
    rw [ih (fun u hu => h u (List.mem_cons_of_mem t hu))]

theorem toggleTask_found (id : Nat) (pre : List Task) (t : Task) (post : List Task)
    (hpre : ∀ u ∈ pre, u.id ≠ id) (ht : t.id = id) :
    toggleTask id (pre ++ t :: post) =
      pre ++ { t with completed := !t.completed } :: post := by
  induction pre with
  | nil => simp [toggleTask, ht]
  | cons u us ih =>
    have hu : u.id ≠ id := hpre u (List.mem_cons_self u us)
    simp only [List.cons_append, toggleTask, if_neg hu, List.append_eq]
    rw [ih (fun v hv => hpre v (List.mem_cons_of_mem u hv))]

theorem toggleTask_toggleTask (id : Nat) :
    ∀ tasks : List Task, toggleTask id (toggleTask id tasks) = tasks := by
  intro tasks
  induction tasks with
  | nil => rfl
  | cons t ts ih =>
    by_cases h : t.id = id
    · have h2 : ({ t with completed := !t.completed } : Task).id = id := h
      simp only [toggleTask, if_pos h, if_pos h2, Bool.not_not]
    · simp only [toggleTask, if_neg h, ih]

theorem setTaskText_not_found (id : Nat) (s : String) :
    ∀ tasks : List Task, (∀ t ∈ tasks, t.id ≠ id) → setTaskText id s tasks = tasks := by
  intro tasks
  induction tasks with
  | nil => intro _; rfl
  | cons t ts ih =>
    intro h
    have ht : t.id ≠ id := h t (List.mem_cons_self t ts)
    simp only [setTaskText, if_neg ht]
    rw [ih (fun u hu => h u (List.mem_cons_of_mem t hu))]

theorem setTaskText_found (id : Nat) (s : String) (pre : List Task) (t : Task)
    (post : List Task) (hpre : ∀ u ∈ pre, u.id ≠ id) (ht : t.id = id) :
    setTaskText id s (pre ++ t :: post) = pre ++ { t with text := s } :: post := by
  induction pre with
  | nil => simp [setTaskText, ht]
  | cons u us ih =>
    have hu : u.id ≠ id := hpre u (List.mem_cons_self u us)
    simp only [List.cons_append, setTaskText, if_neg hu, List.append_eq]
    rw [ih (fun v hv => hpre v (List.mem_cons_of_mem u hv))]

theorem deleteTask_not_found (id : Nat) (tasks : List Task)
    (h : ∀ t ∈ tasks, t.id ≠ id) : deleteTask id tasks = tasks := by
  unfold deleteTask
  apply List.filter_eq_self.mpr
  intro t ht
  simpa using h t ht

/-! ## Claims -/

/-- C1: for every input whose trimmed form is non-empty and of length at most
100, `addTask` appends exactly one new task (size grows by exactly 1), the
new task has `completed = false` and `text` equal to the trimmed input, and
`addTask` returns that new task. -/
theorem addTask_appends (raw : String) (now : Nat) (tasks : List Task)
    (hne : jsTrim raw ≠ "") (hlen : (jsTrim raw).length ≤ 100) :
    ∃ t : Task,
      addTask raw now tasks = (tasks ++ [t], Except.ok t) ∧
      t.completed = false ∧ t.text = jsTrim raw ∧
      (addTask raw now tasks).1.length = tasks.length + 1 := by
  refine ⟨{ id := now, text := jsTrim raw, completed := false, createdAt := now }, ?_, rfl, rfl, ?_⟩
  · simp only [addTask, if_neg hne, if_neg (Nat.not_lt.mpr hlen)]
  · simp only [addTask, if_neg hne, if_neg (Nat.not_lt.mpr hlen)]
    simp

theorem addTask_appends_witness :
    jsTrim "Buy milk" ≠ "" ∧ (jsTrim "Buy milk").length ≤ 100 ∧
    ∃ t : Task,
      addTask "Buy milk" 1 [] = (([] : List Task) ++ [t], Except.ok t) ∧
      t.completed = false ∧ t.text = jsTrim "Buy milk" ∧
      (addTask "Buy milk" 1 []).1.length = ([] : List Task).length + 1 :=
  ⟨by decide, by decide, addTask_appends "Buy milk" 1 [] (by decide) (by decide)⟩

/-- C2: `addTask` fails with `ValidationError.empty` exactly when the trimmed
input is empty, with `ValidationError.tooLong` exactly when the trimmed input
is longer than 100 characters, and on every failure the collection is
returned unchanged. -/
theorem addTask_error_iff (raw : String) (now : Nat) (tasks : List Task) :
    (addTask raw now tasks = (tasks, Except.error ValidationError.empty) ↔
      jsTrim raw = "") ∧
    (addTask raw now tasks = (tasks, Except.error ValidationError.tooLong) ↔
      100 < (jsTrim raw).length) ∧
    (∀ e : ValidationError, (addTask raw now tasks).2 = Except.error e →
      (addTask raw now tasks).1 = tasks) := by
  by_cases h1 : jsTrim raw = ""
  · refine ⟨by simp [addTask, h1], ?_, ?_⟩
    · constructor
      · intro h
        simp [addTask, h1] at h
      · intro h
        have : (jsTrim raw).length = 0 := by simp [h1]
        omega
    · intro e _
      simp [addTask, h1]
  · by_cases h2 : 100 < (jsTrim raw).length
    · refine ⟨?_, by simp [addTask, if_neg h1, if_pos h2, h2], ?_⟩
      · constructor
        · intro h
          simp [addTask, if_neg h1, if_pos h2] at h
        · intro h
          exact absurd h h1
      · intro e _
        simp [addTask, if_neg h1, if_pos h2]
    · have hok : addTask raw now tasks =
          (tasks ++ [{ id := now, text := jsTrim raw, completed := false, createdAt := now }],
            Except.ok { id := now, text := jsTrim raw, completed := false, createdAt := now }) := by
        simp only [addTask, if_neg h1, if_neg h2]
      refine ⟨?_, ?_, ?_⟩
      · rw [hok]
        simp [h1]
      · rw [hok]
        simp [h2]
      · intro e he
        rw [hok] at he
        simp at he

theorem addTask_error_iff_witness :
    addTask "   " 0 [] = ([], Except.error ValidationError.empty) ∧
    addTask (String.mk (List.replicate 101 'a')) 0 [] =
      ([], Except.error ValidationError.tooLong) :=
  ⟨(addTask_error_iff "   " 0 []).1.mpr (by decide),
   (addTask_error_iff (String.mk (List.replicate 101 'a')) 0 []).2.1.mpr (by decide)⟩

/-- C3: saving a collection and loading it back reproduces the collection
exactly — same ids, texts, completed flags and timestamps in the same order —
for any platform `stringify`/`parse` pair that round-trips the written
snapshot (the JSON encoding guarantee of the platform; `JSON.stringify`
output is never the empty string, so the written cell passes the truthiness
guard of line 232; the repository's contribution is that its record
projection at lines 222-227 and reconstruction at line 235 are mutually
inverse). -/
theorem load_save_roundtrip (stringify : List StoredTask → String)
    (parse : String → Option (List StoredTask)) (tasks : List Task)
    (hs : stringify (saveTasks tasks) ≠ "")
    (h : parse (stringify (saveTasks tasks)) = some (saveTasks tasks)) :
    loadTasks parse (some (stringify (saveTasks tasks))) = (tasks, false) := by
  have hcomp : storedToTask ∘ taskToStored = id := by
    funext t
    exact storedToTask_taskToStored t
  have hl : loadTasks parse (some (stringify (saveTasks tasks))) =
      ((saveTasks tasks).map storedToTask, false) := by
    simp [loadTasks, hs, h]
  rw [hl]
  simp only [saveTasks, List.map_map]
  rw [hcomp, List.map_id]

theorem load_save_roundtrip_witness :
    (fun _ : List StoredTask => "snapshot") (saveTasks [⟨5, "buy", true, 77⟩]) ≠ "" ∧
    (fun _ : String => some (saveTasks [⟨5, "buy", true, 77⟩]))
        ((fun _ : List StoredTask => "snapshot") (saveTasks [⟨5, "buy", true, 77⟩])) =
      some (saveTasks [⟨5, "buy", true, 77⟩]) ∧
    loadTasks (fun _ : String => some (saveTasks [⟨5, "buy", true, 77⟩]))
        (some ((fun _ : List StoredTask => "snapshot") (saveTasks [⟨5, "buy", true, 77⟩]))) =
      ([⟨5, "buy", true, 77⟩], false) :=
  ⟨by decide, rfl,
   load_save_roundtrip (fun _ => "snapshot")
     (fun _ => some (saveTasks [⟨5, "buy", true, 77⟩])) [⟨5, "buy", true, 77⟩]
     (by decide) rfl⟩

/-- C4 counterexample: the stored empty string is present and malformed
(`JSON.parse("")` throws), but the `if (stored)` truthiness guard at line
232 skips the whole block: nothing is logged and the collection stays `[]`,
so the claim's "reports/logs a recoverable error" for every malformed stored
string fails there (the logged-error flag is `false`, not `true`). -/
theorem loadTasks_empty_string_not_logged :
    (fun _ : String => (none : Option (List StoredTask))) "" = none ∧
    loadTasks (fun _ : String => (none : Option (List StoredTask))) (some "") =
      ([], false) ∧
    (([], false) : List Task × Bool) ≠ (([], true) : List Task × Bool) :=
  ⟨rfl, rfl, by simp⟩

/-- C4 (amended): when the stored string fails to parse, `loadTasks` yields
the empty collection, and it logs the recoverable error exactly when the
string is non-empty; the present-but-empty string is skipped by the
truthiness guard of line 232, yielding the empty collection silently with
nothing logged; an absent key yields the empty collection; `loadTasks` is a
total function, so no fatal error propagates to the caller. -/
theorem loadTasks_malformed (parse : String → Option (List StoredTask)) (s : String)
    (h : parse s = none) :
    (s ≠ "" → loadTasks parse (some s) = ([], true)) ∧
    (s = "" → loadTasks parse (some s) = ([], false)) ∧
    loadTasks parse none = ([], false) := by
  refine ⟨?_, ?_, rfl⟩
  · intro hs
    simp [loadTasks, hs, h]
  · intro hs
    simp [loadTasks, hs]

theorem loadTasks_malformed_witness :
    (fun _ : String => (none : Option (List StoredTask))) "\x7bnot valid json" = none ∧
    ("\x7bnot valid json" : String) ≠ "" ∧
    loadTasks (fun _ => none) (some "\x7bnot valid json") = ([], true) ∧
    loadTasks (fun _ : String => (none : Option (List StoredTask))) none = ([], false) :=
  ⟨rfl, by decide,
   (loadTasks_malformed (fun _ => none) "\x7bnot valid json" rfl).1 (by decide),
   (loadTasks_malformed (fun _ => none) "\x7bnot valid json" rfl).2.2⟩

/-- C5: under filter "active" the filtered view is an order-preserving
sublist containing exactly the tasks with `completed = false`; under
"completed", exactly those with `completed = true`; under any other filter
value (including "all" and unrecognized strings, the switch default) it is
the full collection. -/
theorem getFilteredTasks_spec (st : AppState) :
    (st.currentFilter = "active" →
      (getFilteredTasks st).Sublist st.tasks ∧
      ∀ t : Task, t ∈ getFilteredTasks st ↔ t ∈ st.tasks ∧ t.completed = false) ∧
    (st.currentFilter = "completed" →
      (getFilteredTasks st).Sublist st.tasks ∧
      ∀ t : Task, t ∈ getFilteredTasks st ↔ t ∈ st.tasks ∧ t.completed = true) ∧
    (st.currentFilter ≠ "active" → st.currentFilter ≠ "completed" →
      getFilteredTasks st = st.tasks) := by
  refine ⟨?_, ?_, ?_⟩
  · intro h
    constructor
    · simp only [getFilteredTasks, if_pos h]
      exact List.filter_sublist st.tasks
    · intro t
      simp [getFilteredTasks, if_pos h, List.mem_filter]
  · intro h
    have hne : st.currentFilter ≠ "active" := by
      rw [h]
      decide
    constructor
    · simp only [getFilteredTasks, if_neg hne, if_pos h]
      exact List.filter_sublist st.tasks
    · intro t
      simp [getFilteredTasks, if_neg hne, if_pos h, List.mem_filter]
  · intro h1 h2
    simp only [getFilteredTasks, if_neg h1, if_neg h2]

theorem getFilteredTasks_spec_witness :
    (AppState.mk [⟨1, "a", false, 0⟩, ⟨2, "b", true, 0⟩] "active").currentFilter = "active" ∧
    (∀ t : Task,
      t ∈ getFilteredTasks (AppState.mk [⟨1, "a", false, 0⟩, ⟨2, "b", true, 0⟩] "active") ↔
      t ∈ (AppState.mk [⟨1, "a", false, 0⟩, ⟨2, "b", true, 0⟩] "active").tasks ∧
        t.completed = false) ∧
    getFilteredTasks (AppState.mk [⟨1, "a", false, 0⟩] "bogus") =
      (AppState.mk [⟨1, "a", false, 0⟩] "bogus").tasks :=
  ⟨rfl,
   ((getFilteredTasks_spec (AppState.mk [⟨1, "a", false, 0⟩, ⟨2, "b", true, 0⟩] "active")).1
     rfl).2,
   (getFilteredTasks_spec (AppState.mk [⟨1, "a", false, 0⟩] "bogus")).2.2
     (by decide) (by decide)⟩

/-- C6: `saveEdit` (the store operation behind `editTask`) fails with
`ValidationError.empty` if and only if the trimmed text is empty; for every
non-empty trimmed text (no length bound — in particular text longer than 100
characters is accepted, unlike `addTask`) it succeeds, is a no-op when no
task has the given id, and replaces exactly the text of the first task with
the given id when one is present. -/
theorem saveEdit_spec (id : Nat) (newText : String) (tasks : List Task) :
    (saveEdit id newText tasks = Except.error ValidationError.empty ↔
      jsTrim newText = "") ∧
    ((∀ t ∈ tasks, t.id ≠ id) → jsTrim newText ≠ "" →
      saveEdit id newText tasks = Except.ok tasks) ∧
    (∀ pre : List Task, ∀ t : Task, ∀ post : List Task,
      tasks = pre ++ t :: post → (∀ u ∈ pre, u.id ≠ id) → t.id = id →
      jsTrim newText ≠ "" →
      saveEdit id newText tasks =
        Except.ok (pre ++ { t with text := jsTrim newText } :: post)) := by
  refine ⟨?_, ?_, ?_⟩
  · by_cases h : jsTrim newText = ""
    · simp [saveEdit, h]
    · simp [saveEdit, if_neg h, h]
  · intro habs hne
    simp only [saveEdit, if_neg hne]
    rw [setTaskText_not_found id (jsTrim newText) tasks habs]
  · intro pre t post hsplit hpre ht hne
    simp only [saveEdit, if_neg hne, hsplit]
    rw [setTaskText_found id (jsTrim newText) pre t post hpre ht]

theorem saveEdit_spec_witness :
    jsTrim (String.mk (List.replicate 120 'x')) ≠ "" ∧
    ([⟨3, "keep", true, 9⟩] : List Task) = [] ++ (⟨3, "keep", true, 9⟩ : Task) :: [] ∧
    (⟨3, "keep", true, 9⟩ : Task).id = 3 ∧
    saveEdit 3 (String.mk (List.replicate 120 'x')) [⟨3, "keep", true, 9⟩] =
      Except.ok
        ([] ++ (⟨3, jsTrim (String.mk (List.replicate 120 'x')), true, 9⟩ : Task) :: []) :=
  ⟨by decide, rfl, rfl,
   (saveEdit_spec 3 (String.mk (List.replicate 120 'x')) [⟨3, "keep", true, 9⟩]).2.2
     [] ⟨3, "keep", true, 9⟩ [] rfl (by simp) rfl (by decide)⟩

/-- C7: toggling the same id twice restores the collection — in particular
the toggled task's `completed` flag — to its initial state, for every
collection in which the id is present. -/
theorem toggleTask_double (id : Nat) (tasks : List Task)
    (_hpresent : ∃ t ∈ tasks, t.id = id) :
    toggleTask id (toggleTask id tasks) = tasks :=
  toggleTask_toggleTask id tasks

theorem toggleTask_double_witness :
    (∃ t ∈ ([⟨4, "a", false, 0⟩] : List Task), t.id = 4) ∧
    toggleTask 4 (toggleTask 4 [⟨4, "a", false, 0⟩]) = [⟨4, "a", false, 0⟩] :=
  ⟨⟨⟨4, "a", false, 0⟩, by simp⟩,
   toggleTask_double 4 [⟨4, "a", false, 0⟩] ⟨⟨4, "a", false, 0⟩, by simp⟩⟩

/-- C8 counterexample: the claim asserts that for an absent id
`editTask(id, text)` raises nothing for every text, but `saveEdit` checks the
trimmed text before looking up the id: with id 7 absent from the empty
collection, `saveEdit 7 "   "` still raises `ValidationError.empty`. -/
theorem saveEdit_absent_id_raises :
    (7 ∉ ([] : List Task).map Task.id) ∧
    saveEdit 7 "   " [] = Except.error ValidationError.empty := by
  refine ⟨by simp, by rfl⟩

/-- C8 (amended): for every id not present in the collection, `deleteTask`
and `toggleTask` are silent no-ops, `saveEdit` is a silent no-op for every
text whose trimmed form is non-empty (with an empty trimmed text it raises
`ValidationError.empty` even though the id is absent, the collection still
unchanged), and a second `deleteTask` of the same id changes nothing. -/
theorem absent_id_noop (id : Nat) (tasks : List Task)
    (h : ∀ t ∈ tasks, t.id ≠ id) :
    deleteTask id tasks = tasks ∧
    toggleTask id tasks = tasks ∧
    (∀ raw : String, jsTrim raw ≠ "" → saveEdit id raw tasks = Except.ok tasks) ∧
    deleteTask id (deleteTask id tasks) = deleteTask id tasks := by
  have hdel : deleteTask id tasks = tasks := deleteTask_not_found id tasks h
  refine ⟨hdel, toggleTask_not_found id tasks h, ?_, by simp [hdel]⟩
  intro raw hne
  simp only [saveEdit, if_neg hne]
  rw [setTaskText_not_found id (jsTrim raw) tasks h]

theorem absent_id_noop_witness :
    (∀ t ∈ ([⟨1, "a", false, 0⟩] : List Task), t.id ≠ 2) ∧
    deleteTask 2 [⟨1, "a", false, 0⟩] = [⟨1, "a", false, 0⟩] ∧
    toggleTask 2 [⟨1, "a", false, 0⟩] = [⟨1, "a", false, 0⟩] ∧
    saveEdit 2 "hello" [⟨1, "a", false, 0⟩] = Except.ok [⟨1, "a", false, 0⟩] :=
  ⟨by decide, (absent_id_noop 2 [⟨1, "a", false, 0⟩] (by decide)).1,
   (absent_id_noop 2 [⟨1, "a", false, 0⟩] (by decide)).2.1,
   (absent_id_noop 2 [⟨1, "a", false, 0⟩] (by decide)).2.2.1 "hello" (by decide)⟩

/-- C9: `addTask` derives the id from `Date.now()`, so two adds within the
same millisecond (the same `now`) produce two tasks sharing one id — the
uniqueness invariant the spec states is not enforced by the code (the spec's
own design notes flag this as a latent bug): starting from the empty
collection, adding "a" then "b" both at clock value 1000 yields ids
[1000, 1000], which is not duplicate-free. -/
theorem addTask_id_collision :
    ((addTask "b" 1000 (addTask "a" 1000 []).1).1.map Task.id = [1000, 1000]) ∧
    ¬ ((addTask "b" 1000 (addTask "a" 1000 []).1).1.map Task.id).Nodup := by
  refine ⟨by decide, by decide⟩

/-- C10 (frame property): when the collection splits as `pre ++ t :: post`
with no task of the given id in `pre` and `t.id = id` (in particular whenever
the id is present under the uniqueness invariant), `toggleTaskApp` rewrites
only `t`, and only its `completed` field — `id`, `text`, `createdAt`, every
other task, the order, and the current filter are unchanged. -/
theorem toggleTask_frame (st : AppState) (id : Nat) (pre : List Task) (t : Task)
    (post : List Task) (hsplit : st.tasks = pre ++ t :: post)
    (hpre : ∀ u ∈ pre, u.id ≠ id) (ht : t.id = id) :
    (toggleTaskApp id st).tasks =
      pre ++ { t with completed := !t.completed } :: post ∧
    (toggleTaskApp id st).currentFilter = st.currentFilter := by
  constructor
  · show toggleTask id st.tasks = _
    rw [hsplit]
    exact toggleTask_found id pre t post hpre ht
  · rfl

theorem toggleTask_frame_witness :
    (AppState.mk [⟨1, "a", false, 3⟩, ⟨2, "b", false, 4⟩] "all").tasks =
      [⟨1, "a", false, 3⟩] ++ (⟨2, "b", false, 4⟩ : Task) :: [] ∧
    (∀ u ∈ ([⟨1, "a", false, 3⟩] : List Task), u.id ≠ 2) ∧
    (⟨2, "b", false, 4⟩ : Task).id = 2 ∧
    (toggleTaskApp 2 (AppState.mk [⟨1, "a", false, 3⟩, ⟨2, "b", false, 4⟩] "all")).tasks =
      [⟨1, "a", false, 3⟩] ++ (⟨2, "b", true, 4⟩ : Task) :: [] ∧
    (toggleTaskApp 2 (AppState.mk [⟨1, "a", false, 3⟩, ⟨2, "b", false, 4⟩] "all")).currentFilter =
      (AppState.mk [⟨1, "a", false, 3⟩, ⟨2, "b", false, 4⟩] "all").currentFilter :=
  ⟨rfl, by decide, rfl,
   (toggleTask_frame (AppState.mk [⟨1, "a", false, 3⟩, ⟨2, "b", false, 4⟩] "all") 2
     [⟨1, "a", false, 3⟩] ⟨2, "b", false, 4⟩ [] rfl (by decide) rfl).1,
   (toggleTask_frame (AppState.mk [⟨1, "a", false, 3⟩, ⟨2, "b", false, 4⟩] "all") 2
     [⟨1, "a", false, 3⟩] ⟨2, "b", false, 4⟩ [] rfl (by decide) rfl).2⟩

end TodoSpec
